import Mathlib

/-
Verification of the goproxy core against its natural-language specification.

The definitions below are a shallow embedding, translated directly from the
Go sources:
  - httpproxy/listener.go        (listener, acceptance worker, Close/Add)
  - httpproxy/transport/direct/dialer.go  (DNS-caching Dialer)
  - httpproxy/filters/vps/vps.go and filters/php (backend selection)
  - httpproxy/filters/autoproxy  (blocklist updater)

Machine integers are modelled as Nat; time.Duration values are in
nanoseconds.  External effects (the raw net listener, DNS, the object
store, the HTTP transport) are supplied as explicit environments so that
each operation is a pure, executable function of its inputs.
-/

namespace GoProxy

/- ## Go string/path helpers used by the backend-selection heuristic.

These mirror the Go standard library functions used at the relevant call
sites: strings.Contains, strings.HasPrefix, path.Ext, path.Base. -/

/-- Aux for substring search: does `sub` begin any suffix? -/
def containsAux (sub : List Char) : List Char → Bool
  | [] => sub.isPrefixOf ([] : List Char)
  | c :: rest => sub.isPrefixOf (c :: rest) || containsAux sub rest

/-- strings.Contains s sub -/
def goContains (s sub : String) : Bool := containsAux sub.data s.data

/-- strings with the given starting segment (the Go stdlib string test used
at the call site, checking that `pre` begins `s`). -/
def goHasPref (s pre : String) : Bool := pre.data.isPrefixOf s.data

/-- Aux for path.Ext: walk the reversed character list; stop at a slash,
return the suffix from the last dot. `acc` is the suffix seen so far. -/
def extAux : List Char → List Char → String
  | [], _ => ""
  | c :: rest, acc =>
    if c = '/' then ""
    else if c = '.' then String.mk (c :: acc)
    else extAux rest (c :: acc)

/-- path.Ext: the suffix beginning at the final dot in the final
slash-separated element of the path; empty if there is none. -/
def goPathExt (p : String) : String := extAux p.data.reverse []

/-- Aux for path.Base: drop trailing slashes. -/
def dropTrailingSlashes (cs : List Char) : List Char :=
  (cs.reverse.dropWhile (fun c => c = '/')).reverse

/-- Aux for path.Base: the segment after the last slash. -/
def lastElem (cs : List Char) : List Char :=
  (cs.reverse.takeWhile (fun c => c != '/')).reverse

/-- path.Base: the last element of the path; "." for the empty path, "/"
for an all-slash path. -/
def goPathBase (p : String) : String :=
  if p = "" then "."
  else
    let cs := dropTrailingSlashes p.data
    if cs = [] then "/" else String.mk (lastElem cs)

/- ## Backend selection (vps.Filter.RoundTrip and php.Filter.RoundTrip).

Both filters contain the identical index-selection switch over
path.Ext(req.URL.Path).  `r` stands for the value returned by the
rand.Intn(len(f.FetchServers)) draw, which is uniform on [0, n) when
n > 0; rand.Intn panics when n = 0, modelled as `none`. -/

/-- The media-extension case list of the selection switch. -/
def mediaExts : List String := [".jpg", ".png", ".webp", ".bmp", ".gif", ".flv", ".mp4"]

/-- Whether the extension selects the random-index branch. -/
def isMediaExt (ext : String) : Bool := mediaExts.contains ext

/-- The default-branch host/path substring tests of the selection switch. -/
def staticAssetMatch (host p : String) : Bool :=
  goContains host "img." || goContains host "cache." || goContains host "video." ||
    goContains host "static." || goHasPref host "img" || goHasPref p "/static" ||
    goHasPref p "/asset" || goContains p "min.js" || goContains p "static" ||
    goContains p "asset" || goContains p "/cache/"

/-- rand.Intn n with draw r: panics (none) when n = 0, else the draw. -/
def randIntn (n r : Nat) : Option Nat :=
  if n = 0 then none else some r

/-- The value of `i` computed by the selection switch; `none` models the
rand.Intn panic on an empty fetch-server list. -/
def selectIndex (host p : String) (n r : Nat) : Option Nat :=
  let ext := goPathExt p
  if isMediaExt ext then randIntn n r
  else if ext = "" then
    (if goContains (goPathBase p) "play" || goContains (goPathBase p) "video"
      then randIntn n r else some 0)
  else if staticAssetMatch host p then randIntn n r
  else some 0

/-- `fetchServer := f.FetchServers[i]`: the index actually used to access
the fetch-server slice of length n; `none` models a runtime panic (either
rand.Intn(0) or a slice index out of range). -/
def fetchIndex (host p : String) (n r : Nat) : Option Nat :=
  match selectIndex host p n r with
  | none => none
  | some i => if i < n then some i else none

/- ## Listener (httpproxy listener.go).

The acceptance worker is the goroutine started by listener.Accept's
once.Do: it repeatedly calls the raw listener's Accept, publishes each
result into the lane channel, and on error either backs off and retries
(temporary network error) or returns (any other error).  We model the
worker as the sequential processing of the stream of results the raw
listener produces.  Delays are in nanoseconds. -/

/-- One result of the raw listener's Accept call. -/
inductive AcceptResult where
  | conn (id : Nat)
  | tempErr (e : String)
  | permErr (e : String)
deriving DecidableEq

/-- The racer pair published on the lane channel (conn is nil on error). -/
structure Racer where
  conn : Option Nat
  err : Option String
deriving DecidableEq

/-- The racer the worker publishes for a given accept result. -/
def racerOf : AcceptResult → Racer
  | AcceptResult.conn id => ⟨some id, none⟩
  | AcceptResult.tempErr e => ⟨none, some e⟩
  | AcceptResult.permErr e => ⟨none, some e⟩

/-- Whether an accept result is a non-temporary error. -/
def isPermErr : AcceptResult → Bool
  | AcceptResult.permErr _ => true
  | _ => false

/-- Backoff start: 5 * time.Millisecond in nanoseconds. -/
def acceptBackoffStart : Nat := 5000000

/-- Backoff cap: 1 * time.Second in nanoseconds. -/
def acceptBackoffMax : Nat := 1000000000

/-- The tempDelay update on a temporary error: 5 ms if zero, else doubled,
then capped at 1 s. -/
def nextTempDelay (d : Nat) : Nat :=
  let d' := if d = 0 then acceptBackoffStart else d * 2
  if d' > acceptBackoffMax then acceptBackoffMax else d'

/-- The acceptance worker run over a stream of raw accept results, with
current tempDelay d.  Returns (racers published on the lane, sleeps
performed); a non-temporary error stops the worker, leaving the rest of
the stream unconsumed. -/
def acceptWorker : List AcceptResult → Nat → List Racer × List Nat
  | [], _ => ([], [])
  | AcceptResult.conn id :: rest, d =>
    ((⟨some id, none⟩ : Racer) :: (acceptWorker rest d).1, (acceptWorker rest d).2)
  | AcceptResult.tempErr e :: rest, d =>
    ((⟨none, some e⟩ : Racer) :: (acceptWorker rest (nextTempDelay d)).1,
      nextTempDelay d :: (acceptWorker rest (nextTempDelay d)).2)
  | AcceptResult.permErr e :: _, _ => ([⟨none, some e⟩], [])

/-- The claim's backoff law as a predicate on the sleep sequence: each
sleep equals the tempDelay update of the previous one (5 ms first,
doubling, capped at 1 s). -/
def delayChainOk : Nat → List Nat → Bool
  | _, [] => true
  | d, x :: xs => (x == nextTempDelay d) && delayChainOk x xs

/- listener.Close and listener.Add.  Both take l.mu, so their executions
serialize; we model the state the mutex protects together with the lane
queue contents and the closed flags. -/

/-- The mutex-protected listener state: the stopped flag, whether the lane
channel and the raw listener have been closed, and the queued racers. -/
structure ListenerState where
  stopped : Bool
  laneClosed : Bool
  lnClosed : Bool
  lane : List Racer
deriving DecidableEq

/-- listener.Close: a second call returns nil at once; the first call sets
stopped, closes the lane channel, closes the raw listener and returns the
raw listener's close error. -/
def listenerClose (lnCloseErr : Option String) (s : ListenerState) :
    ListenerState × Option String :=
  if s.stopped then (s, none)
  else ({ s with stopped := true, laneClosed := true, lnClosed := true }, lnCloseErr)

/-- listener.Add: fails with an "already closed" error once stopped,
otherwise enqueues racer{conn, nil}. -/
def listenerAdd (c : Nat) (s : ListenerState) : ListenerState × Option String :=
  if s.stopped then (s, some "already closed")
  else ({ s with lane := s.lane ++ [⟨some c, none⟩] }, none)

/- ## Blocklist updater (autoproxy Filter.updater).

One iteration of the updater loop, triggered either by the manual
UpdateChan signal or by the 10-minute ticker.  The object store, the
Last-Modified parse and the remote transport are supplied as an explicit
environment.  Times are Nat instants; time.Now().After(t) is strict
`t < now`.  NewRequest("GET", u, nil) on the already-parsed gfwlist URL
cannot fail and is not given a failure case. -/

/-- The shared mutable state the cycle touches: the persisted object body
(none = object absent, i.e. deleted) and the content the in-memory
AutoProxy2Pac generator was built from. -/
structure UpdaterState where
  store : Option String
  autoProxy2Pac : String
deriving DecidableEq

/-- NewFilter loads the persisted copy and builds the PAC generator from
it, so construction starts with both equal to the stored content. -/
def newFilterState (content : String) : UpdaterState :=
  ⟨some content, content⟩

/-- Environment of the fetch/store part of one update: the result of
Transport.RoundTrip on the gfwlist URL, the result of ReadAll over the
(optionally base64-decoding) body reader, and the results of
Store.DeleteObject and Store.PutObject (some msg = error). -/
structure FetchEnv where
  roundTrip : Except String String
  readAll : String → Except String String
  deleteResult : Option String
  putResult : Option String

/-- The body of `if needUpdate { ... }` in Filter.updater: fetch the
remote resource, read/decode it, delete the persisted object, put the new
data.  Every error aborts the iteration (`continue`), returning whatever
state the store is in at that point; the in-memory generator is never
touched. -/
def runUpdate (env : FetchEnv) (st : UpdaterState) : UpdaterState :=
  match env.roundTrip with
  | Except.error _ => st
  | Except.ok body =>
    match env.readAll body with
    | Except.error _ => st
    | Except.ok data =>
      match env.deleteResult with
      | some _ => st
      | none =>
        match env.putResult with
        | some _ => { st with store := none }
        | none => { st with store := some data }

/-- Environment of the staleness check on a ticker iteration: the result
of Store.HeadObject projected to its Last-Modified header ("" when the
header is missing), the time.Parse of that header with the store's date
format, the current time, and the configured refresh interval. -/
structure TickEnv where
  headResult : Except String String
  parse : String → Option Nat
  now : Nat
  duration : Nat

/-- The `if !needUpdate { ... }` block of Filter.updater on a ticker
iteration: HeadObject error, missing Last-Modified or parse failure skip
the cycle; otherwise update is needed iff now is after modTime plus the
configured duration. -/
def tickNeedUpdate (te : TickEnv) : Bool :=
  match te.headResult with
  | Except.error _ => false
  | Except.ok lm =>
    if lm = "" then false
    else
      match te.parse lm with
      | none => false
      | some modTime => decide (modTime + te.duration < te.now)

/-- The two trigger sources of the updater loop. -/
inductive UpdateTrigger where
  | manual
  | tick

/-- One full iteration of the updater loop: the manual trigger forces the
update, the ticker consults the staleness check; the returned Bool
records whether the remote resource was fetched (Transport.RoundTrip
invoked) during this iteration.  The loop itself never exits. -/
def updaterCycle (tr : UpdateTrigger) (te : TickEnv) (fe : FetchEnv)
    (st : UpdaterState) : UpdaterState × Bool :=
  let needUpdate :=
    match tr with
    | UpdateTrigger.manual => true
    | UpdateTrigger.tick => tickNeedUpdate te
  if needUpdate then (runUpdate fe st, true) else (st, false)

/-- A fetch environment in which every step succeeds and the remote
resource reads as "ruleB". -/
def fetchOkEnvB : FetchEnv :=
  ⟨Except.ok "ruleB", fun b => Except.ok b, none, none⟩

/-- A fetch environment in which delete succeeds but put fails. -/
def putFailEnv : FetchEnv :=
  ⟨Except.ok "ruleB", fun b => Except.ok b, none, some "put refused"⟩

/-- A fetch environment in which the remote fetch itself fails. -/
def fetchFailEnv : FetchEnv :=
  ⟨Except.error "network down", fun b => Except.ok b, none, none⟩

/- ## DNS-caching Dialer (httpproxy/transport/direct/dialer.go).

The Go type is

  type Dialer struct {
    net.Dialer
    RetryTimes int; RetryDelay, DNSCacheExpires time.Duration
    DNSCacheSize uint
    dnsCache lrucache.Cache; loAddrs map[string]struct\x7b\x7d; once sync.Once
  }

with BOTH methods declared on a VALUE receiver:

  func (d Dialer) init()  \x7b d.once.Do(func() \x7b ... \x7d) \x7d
  func (d Dialer) Dial(network, address string) (net.Conn, error)

Because init's receiver is a copy, every field it assigns (the defaulted
RetryTimes/RetryDelay/DNSCacheExpires/DNSCacheSize, the fresh lrucache,
the loAddrs set) is set on that copy and discarded when init returns; the
copied sync.Once likewise never marks the caller's once as done.  The
embedding below is faithful to that: `Dialer.init` returns the copy it
would have produced, and `Dialer.Dial` computes it and discards it, using
the untouched receiver for everything else — exactly the Go evaluation.
The unexported dnsCache and loAddrs fields can never be set anywhere
else, so on every reachable Dialer value they are nil (`none`). -/

/-- Defaults declared at the top of dialer.go (durations in ns). -/
def defaultRetryTimes : Nat := 2

/-- DefaultRetryDelay = 100 * time.Millisecond. -/
def defaultRetryDelay : Nat := 100000000

/-- DefaultDNSCacheExpires = time.Hour. -/
def defaultDNSCacheExpires : Nat := 3600000000000

/-- DefaultDNSCacheSize = 8 * 1024. -/
def defaultDNSCacheSize : Nat := 8192

/-- The network environment the dialer runs in: the local interface
addresses as (Network(), String()) pairs (none = enumeration error), the
DNS resolver (none = lookup error), and the outcome of the i-th
underlying net.Dialer.Dial attempt on (network, address). -/
structure NetEnv where
  interfaceAddrs : Option (List (String × String))
  lookupIP : String → Option (List String)
  attempt : Nat → String → String → Except String Nat

/-- The Dialer struct; dnsCache entries are (key, resolved, expiry) and
the `none` states of dnsCache/loAddrs are the Go nil interface / nil map
of a zero value. -/
structure Dialer where
  retryTimes : Nat := 0
  retryDelay : Nat := 0
  dnsCacheExpires : Nat := 0
  dnsCacheSize : Nat := 0
  dnsCache : Option (List (String × String × Nat)) := none
  loAddrs : Option (List String) := none

/-- The body of once.Do inside Dialer.init, applied to the receiver copy:
fill in defaults, allocate the cache, build loAddrs from "::1" plus every
interface address whose Network() is "ip".  The Go caller discards this
result. -/
def Dialer.init (env : NetEnv) (d : Dialer) : Dialer :=
  { d with
    retryTimes := if d.retryTimes = 0 then defaultRetryTimes else d.retryTimes,
    retryDelay := if d.retryDelay = 0 then defaultRetryDelay else d.retryDelay,
    dnsCacheExpires :=
      if d.dnsCacheExpires = 0 then defaultDNSCacheExpires else d.dnsCacheExpires,
    dnsCacheSize := if d.dnsCacheSize = 0 then defaultDNSCacheSize else d.dnsCacheSize,
    dnsCache := some [],
    loAddrs := some
      ("::1" :: (match env.interfaceAddrs with
        | none => []
        | some addrs => (addrs.filter (fun a => a.1 == "ip")).map (fun a => a.2))) }

/-- lrucache Get: entries at or past their expiry are treated as absent. -/
def cacheGet (cache : List (String × String × Nat)) (now : Nat) (key : String) :
    Option String :=
  match cache.find? (fun e => e.1 == key) with
  | some e => if now < e.2.2 then some e.2.1 else none
  | none => none

/-- net.SplitHostPort restricted to the forms the dialer meets: split at
the last colon, allowing a bracketed IPv6 host. -/
def splitHostPort (s : String) : Option (String × String) :=
  let rev := s.data.reverse
  let portRev := rev.takeWhile (fun c => c != ':')
  if portRev.length = rev.length then none
  else
    let hostCs := (rev.drop (portRev.length + 1)).reverse
    let port := String.mk portRev.reverse
    if hostCs.contains ':' then
      match hostCs with
      | '[' :: rest =>
        if rest.getLast? = some ']' then some (String.mk rest.dropLast, port) else none
      | _ => none
    else some (String.mk hostCs, port)

/-- net.JoinHostPort: brackets the host when it contains a colon. -/
def joinHostPort (host port : String) : String :=
  if host.data.contains ':' then "[" ++ host ++ "]:" ++ port
  else host ++ ":" ++ port

/-- Everything one Dial call did: a runtime panic (if any), the returned
(conn, err) pair, the number of underlying connect attempts, the sleeps
between them, the number of DNS resolutions performed, and the cache
contents afterwards. -/
structure DialTrace where
  panicMsg : Option String := none
  conn : Option Nat := none
  err : Option String := none
  attempts : Nat := 0
  sleeps : List Nat := []
  lookups : Nat := 0
  cacheAfter : Option (List (String × String × Nat)) := none
deriving DecidableEq

/-- The message of a method call on a nil Go interface value. -/
def nilDeref : String := "runtime error: invalid memory address or nil pointer dereference"

/-- The retry loop of Dialer.Dial: `for i := 0; i < retryTimes; i++`,
breaking on success or on the last iteration, sleeping retryDelay
otherwise.  Returns (conn, err, attempts made, sleeps performed); with
retryTimes = 0 the body never runs and both conn and err stay nil. -/
def retryLoop (env : NetEnv) (network address : String) (delay : Nat) :
    Nat → Nat → Option Nat × Option String × Nat × List Nat
  | _, 0 => (none, none, 0, [])
  | i, remaining + 1 =>
    match env.attempt i network address with
    | Except.ok c => (some c, none, 1, [])
    | Except.error e =>
      if remaining = 0 then (none, some e, 1, [])
      else
        let r := retryLoop env network address delay (i + 1) remaining
        (r.1, r.2.1, r.2.2.1 + 1, delay :: r.2.2.2)

/-- The tail of Dialer.Dial after the address rewrite: run the retry loop
with the receiver's (unchanged) retryTimes and retryDelay. -/
def dialFinish (env : NetEnv) (d : Dialer) (network address : String)
    (lookups : Nat) (cacheAfter : Option (List (String × String × Nat))) : DialTrace :=
  let r := retryLoop env network address d.retryDelay 0 d.retryTimes
  { conn := r.1, err := r.2.1, attempts := r.2.2.1, sleeps := r.2.2.2,
    lookups := lookups, cacheAfter := cacheAfter }

/-- Dialer.Dial.  The first line models `d.init()`: the filled-in copy
is computed and dropped (value receiver), so the remainder of the body
runs on the untouched receiver.  For TCP networks the DNS cache is
consulted first; on the zero value that cache is the nil lrucache.Cache
interface and the Get call is a nil-pointer panic.  On a cache miss the
host is resolved, the first IP checked against loAddrs (skipped when
loAddrs is nil, which it always is on the receiver), the resolution
cached and used.  Non-TCP networks go straight to the retry loop. -/
def Dialer.Dial (env : NetEnv) (d : Dialer) (now : Nat) (network address : String) :
    DialTrace :=
  let _initCopy := Dialer.init env d
  if network == "tcp" || network == "tcp4" || network == "tcp6" then
    match d.dnsCache with
    | none => { panicMsg := some nilDeref }
    | some cache =>
      match cacheGet cache now address with
      | some addr => dialFinish env d network addr 0 (some cache)
      | none =>
        match splitHostPort address with
        | none => dialFinish env d network address 0 (some cache)
        | some (host, port) =>
          match env.lookupIP host with
          | none => dialFinish env d network address 1 (some cache)
          | some [] => dialFinish env d network address 1 (some cache)
          | some (ip :: _) =>
            if (match d.loAddrs with
                | some lo => lo.contains ip
                | none => false) then
              { err := some ("Invaid DNS Record: " ++ host ++ "(" ++ ip ++ ")"),
                lookups := 1, cacheAfter := some cache }
            else
              let addr := joinHostPort ip port
              let cache' := (address, addr, now + d.dnsCacheExpires) :: cache
              dialFinish env d network addr 1 (some cache')
  else
    dialFinish env d network address 0 d.dnsCache

/-- Environment for the loopback-rejection scenario: localhost resolves
to ::1 and every connect attempt would succeed. -/
def envLoopback : NetEnv :=
  ⟨some [], fun host => if host == "localhost" then some ["::1"] else none,
    fun _ _ _ => Except.ok 1⟩

/-- Environment for the retry scenario: every connect attempt fails. -/
def envRetry : NetEnv :=
  ⟨some [], fun _ => none, fun _ _ _ => Except.error "connection refused"⟩

/-- Environment for the cache scenario: example.com resolves and connects
succeed. -/
def envCache : NetEnv :=
  ⟨some [], fun host => if host == "example.com" then some ["93.184.216.34"] else none,
    fun _ _ _ => Except.ok 2⟩

end GoProxy

namespace GoProxy

/-- C7: For a matched request, the chosen backend index is the uniform
rand.Intn draw r (for any r < N) when the path extension is one of
.jpg/.png/.webp/.bmp/.gif/.flv/.mp4, and is the fixed index 0 for any
request with a non-empty extension outside that set whose host and path
match none of the static/media substrings. -/
theorem backend_selection_media_random_else_primary
    (host p : String) (n r : Nat) (hr : r < n) :
    (isMediaExt (goPathExt p) = true → fetchIndex host p n r = some r)
    ∧ (goPathExt p ≠ "" → isMediaExt (goPathExt p) = false →
        staticAssetMatch host p = false → fetchIndex host p n r = some 0) := by
  have hn : n ≠ 0 := by omega
  constructor
  · intro hm
    simp [fetchIndex, selectIndex, hm, randIntn, hn, hr]
  · intro he hm hs
    simp [fetchIndex, selectIndex, hm, hs, he, randIntn]
    omega

/-- Witness for C7 at concrete inputs: a .mp4 path takes the random draw,
/page.html with a non-matching host pins to index 0. -/
theorem backend_selection_media_random_else_primary_witness :
    fetchIndex "example.com" "/x/video.mp4" 3 2 = some 2
    ∧ fetchIndex "example.com" "/page.html" 3 1 = some 0 :=
  ⟨(backend_selection_media_random_else_primary "example.com" "/x/video.mp4" 3 2
      (by decide)).1 (by decide),
   (backend_selection_media_random_else_primary "example.com" "/page.html" 3 1
      (by decide)).2 (by decide) (by decide) (by decide)⟩

/-- Helper: the selection switch yields either the random draw or 0 (when
the draw does not panic). -/
theorem selectIndex_cases (host p : String) (n r : Nat) (hn : n ≠ 0) :
    selectIndex host p n r = some r ∨ selectIndex host p n r = some 0 := by
  have hme : isMediaExt "" = false := by decide
  unfold selectIndex
  by_cases he : goPathExt p = ""
  · by_cases hp : (goContains (goPathBase p) "play"
        || goContains (goPathBase p) "video") = true
    · left; simp [he, hme, hp, randIntn, hn]
    · right; simp [he, hme, hp]
  · by_cases hm : isMediaExt (goPathExt p) = true
    · left; simp [hm, randIntn, hn]
    · by_cases hs : staticAssetMatch host p = true
      · left; simp [hm, he, hs, randIntn, hn]
      · right; simp [hm, he, hs]

/-- Helper: with an empty fetch-server list the selection switch either
panics in rand.Intn or picks index 0. -/
theorem selectIndex_zero (host p : String) (r : Nat) :
    selectIndex host p 0 r = none ∨ selectIndex host p 0 r = some 0 := by
  have hme : isMediaExt "" = false := by decide
  unfold selectIndex
  by_cases he : goPathExt p = ""
  · by_cases hp : (goContains (goPathBase p) "play"
        || goContains (goPathBase p) "video") = true
    · left; simp [he, hme, hp, randIntn]
    · right; simp [he, hme, hp]
  · by_cases hm : isMediaExt (goPathExt p) = true
    · left; simp [hm, randIntn]
    · by_cases hs : staticAssetMatch host p = true
      · left; simp [hm, he, hs, randIntn]
      · right; simp [hm, he, hs]

/-- C10: every matched request indexes the fetch-server list, so a
non-empty list is a precondition: with n = 0 the access panics (none) on
every input, and with 0 < n and a draw r < n it always yields an in-range
index. -/
theorem fetchservers_nonempty_precondition (host p : String) (n r : Nat) :
    fetchIndex host p 0 r = none
    ∧ (r < n → ∃ i, fetchIndex host p n r = some i ∧ i < n) := by
  constructor
  · rcases selectIndex_zero host p r with h | h <;> simp [fetchIndex, h]
  · intro hr
    have hn : n ≠ 0 := by omega
    rcases selectIndex_cases host p n r hn with h | h
    · exact ⟨r, by simp [fetchIndex, h, hr], hr⟩
    · exact ⟨0, by simp [fetchIndex, h]; omega, by omega⟩

/-- Witness for C10: an empty fetch-server list panics for a media path,
and a 3-element list always yields an in-range index. -/
theorem fetchservers_nonempty_precondition_witness :
    fetchIndex "h.example" "/a.jpg" 0 5 = none
    ∧ ∃ i, fetchIndex "h.example" "/a.jpg" 3 1 = some i ∧ i < 3 :=
  ⟨(fetchservers_nonempty_precondition "h.example" "/a.jpg" 0 5).1,
   (fetchservers_nonempty_precondition "h.example" "/a.jpg" 3 1).2 (by decide)⟩

/-- Helper: processing a permanent-error-free segment followed by a
non-temporary error publishes exactly the segment's racers and then the
single error, and nothing beyond it. -/
theorem acceptWorker_append_perm (e : String) (pre rest : List AcceptResult) :
    ∀ d : Nat, pre.all (fun x => !isPermErr x) = true →
    acceptWorker (pre ++ AcceptResult.permErr e :: rest) d
      = (pre.map racerOf ++ [⟨none, some e⟩], (acceptWorker pre d).2) := by
  induction pre with
  | nil => intro d _; simp [acceptWorker]
  | cons hd tl ih =>
    intro d h
    rw [List.all_cons, Bool.and_eq_true] at h
    obtain ⟨h1, h2⟩ := h
    cases hd with
    | conn id => simp [acceptWorker, ih d h2, racerOf]
    | tempErr e2 => simp [acceptWorker, ih (nextTempDelay d) h2, racerOf]
    | permErr e2 => simp [isPermErr] at h1

/-- Helper: every sleep the worker performs obeys the tempDelay law from
its starting delay. -/
theorem delayChainOk_acceptWorker (xs : List AcceptResult) :
    ∀ d : Nat, delayChainOk d (acceptWorker xs d).2 = true := by
  induction xs with
  | nil => intro d; simp [acceptWorker, delayChainOk]
  | cons hd tl ih =>
    intro d
    cases hd with
    | conn id => simpa [acceptWorker] using ih d
    | tempErr e => simp [acceptWorker, delayChainOk]; exact ih (nextTempDelay d)
    | permErr e => simp [acceptWorker, delayChainOk]

/-- C8: the acceptance worker retries each temporary accept error after a
backoff sleep that starts at 5 ms, doubles on each further temporary
error and is capped at 1 s (delayChainOk); on the first non-temporary
error it publishes that single error into the queue and terminates,
publishing nothing from the rest of the stream. -/
theorem listener_accept_worker_backoff_and_single_stop
    (pre rest : List AcceptResult) (e : String)
    (h : pre.all (fun x => !isPermErr x) = true) :
    acceptWorker (pre ++ AcceptResult.permErr e :: rest) 0
      = (pre.map racerOf ++ [⟨none, some e⟩], (acceptWorker pre 0).2)
    ∧ delayChainOk 0 (acceptWorker pre 0).2 = true :=
  ⟨acceptWorker_append_perm e pre rest 0 h, delayChainOk_acceptWorker pre 0⟩

/-- Witness for C8: two temporary errors and a connection, then a
permanent error followed by further stream items that are never
published. -/
theorem listener_accept_worker_backoff_and_single_stop_witness :
    acceptWorker
        ([AcceptResult.tempErr "t1", AcceptResult.conn 1, AcceptResult.tempErr "t2"]
          ++ AcceptResult.permErr "boom" :: [AcceptResult.conn 9]) 0
      = ([AcceptResult.tempErr "t1", AcceptResult.conn 1,
            AcceptResult.tempErr "t2"].map racerOf ++ [⟨none, some "boom"⟩],
          (acceptWorker [AcceptResult.tempErr "t1", AcceptResult.conn 1,
            AcceptResult.tempErr "t2"] 0).2)
    ∧ delayChainOk 0 (acceptWorker [AcceptResult.tempErr "t1", AcceptResult.conn 1,
        AcceptResult.tempErr "t2"] 0).2 = true :=
  listener_accept_worker_backoff_and_single_stop
    [AcceptResult.tempErr "t1", AcceptResult.conn 1, AcceptResult.tempErr "t2"]
    [AcceptResult.conn 9] "boom" (by decide)

/-- C9: the first Close on a running listener marks it stopped, closes the
lane channel and the raw listener and returns the raw close result; any
further Close is a no-op returning success; and any Add once stopped
returns a closed-listener error without enqueuing anything. -/
theorem listener_close_idempotent_add_rejected
    (s : ListenerState) (e1 e2 : Option String) (c : Nat) (h : s.stopped = false) :
    ((listenerClose e1 s).1.stopped = true ∧ (listenerClose e1 s).1.laneClosed = true
      ∧ (listenerClose e1 s).1.lnClosed = true ∧ (listenerClose e1 s).2 = e1)
    ∧ listenerClose e2 (listenerClose e1 s).1 = ((listenerClose e1 s).1, none)
    ∧ listenerAdd c (listenerClose e1 s).1
        = ((listenerClose e1 s).1, some "already closed") := by
  simp [listenerClose, listenerAdd, h]

/-- C2 counterexample: the claim that a successful refresh cycle rebuilds
the in-memory PAC generator from the newly fetched content is false.  A
filter built from "ruleA" runs a fully successful update fetching
"ruleB": the persisted copy becomes "ruleB" but the generator still
holds "ruleA" — Filter.updater contains no rebuild step. -/
theorem pac_rebuild_after_update_counterexample :
    (runUpdate fetchOkEnvB (newFilterState "ruleA")).store = some "ruleB"
    ∧ (runUpdate fetchOkEnvB (newFilterState "ruleA")).autoProxy2Pac = "ruleA"
    ∧ (runUpdate fetchOkEnvB (newFilterState "ruleA")).autoProxy2Pac ≠ "ruleB" := by
  refine ⟨rfl, rfl, ?_⟩
  decide

/-- C2 amended: after every successful refresh cycle the persisted copy
holds exactly the newly fetched content, while the in-memory PAC
generator is left untouched — it keeps reflecting the ruleset loaded at
filter construction. -/
theorem pac_not_rebuilt_after_update (fe : FetchEnv) (st : UpdaterState)
    (body data : String)
    (h1 : fe.roundTrip = Except.ok body) (h2 : fe.readAll body = Except.ok data)
    (h3 : fe.deleteResult = none) (h4 : fe.putResult = none) :
    runUpdate fe st = { store := some data, autoProxy2Pac := st.autoProxy2Pac } := by
  simp [runUpdate, h1, h2, h3, h4]

/-- Witness for the amended C2 on the concrete all-success environment. -/
theorem pac_not_rebuilt_after_update_witness :
    runUpdate fetchOkEnvB (newFilterState "ruleA")
      = { store := some "ruleB", autoProxy2Pac := "ruleA" } :=
  pac_not_rebuilt_after_update fetchOkEnvB (newFilterState "ruleA") "ruleB" "ruleB"
    rfl rfl rfl rfl

/-- C5 counterexample: the claim that any fetch/decode/store failure
leaves the persisted copy unmodified is false for a PutObject failure:
the preceding DeleteObject already succeeded, so the persisted copy is
gone. -/
theorem update_failure_unmodified_counterexample :
    (newFilterState "ruleA").store = some "ruleA"
    ∧ (runUpdate putFailEnv (newFilterState "ruleA")).store = none := by
  exact ⟨rfl, rfl⟩

/-- C5 amended: a fetch, read/decode, or delete failure aborts the cycle
with the persisted copy unmodified; a put failure after the successful
delete aborts it with the persisted copy deleted (the delete-then-put
swap is not atomic).  In every case the iteration returns so the loop
continues to the next trigger. -/
theorem update_failure_cases (fe : FetchEnv) (st : UpdaterState) :
    ((∃ e, fe.roundTrip = Except.error e) → runUpdate fe st = st)
    ∧ (∀ body, fe.roundTrip = Except.ok body →
        (∃ e, fe.readAll body = Except.error e) → runUpdate fe st = st)
    ∧ (∀ body data, fe.roundTrip = Except.ok body → fe.readAll body = Except.ok data →
        (∃ e, fe.deleteResult = some e) → runUpdate fe st = st)
    ∧ (∀ body data, fe.roundTrip = Except.ok body → fe.readAll body = Except.ok data →
        fe.deleteResult = none → (∃ e, fe.putResult = some e) →
        runUpdate fe st = { st with store := none }) := by
  refine ⟨?_, ?_, ?_, ?_⟩
  · rintro ⟨e, he⟩; simp [runUpdate, he]
  · rintro body hb ⟨e, he⟩; simp [runUpdate, hb, he]
  · rintro body data hb hd ⟨e, he⟩; simp [runUpdate, hb, hd, he]
  · rintro body data hb hd hdel ⟨e, he⟩; simp [runUpdate, hb, hd, hdel, he]

/-- Witness for the amended C5: a failed remote fetch leaves the state
unchanged, and a failed put after a successful delete leaves the
persisted copy deleted. -/
theorem update_failure_cases_witness :
    runUpdate fetchFailEnv (newFilterState "ruleA") = newFilterState "ruleA"
    ∧ runUpdate putFailEnv (newFilterState "ruleA")
        = { newFilterState "ruleA" with store := none } :=
  ⟨(update_failure_cases fetchFailEnv (newFilterState "ruleA")).1
      ⟨"network down", rfl⟩,
   (update_failure_cases putFailEnv (newFilterState "ruleA")).2.2.2 "ruleB" "ruleB"
      rfl rfl rfl ⟨"put refused", rfl⟩⟩

/-- C6: on a ticker iteration (no pending manual flush) the stored copy's
metadata is consulted and the remote resource is fetched exactly when the
head succeeded, the Last-Modified header is present and parses, and now
is after modTime plus the refresh interval; otherwise the iteration
leaves the state untouched. -/
theorem updater_tick_staleness_decision (te : TickEnv) (fe : FetchEnv)
    (st : UpdaterState) :
    ((updaterCycle UpdateTrigger.tick te fe st).2 = true
      ↔ ∃ lm modTime, te.headResult = Except.ok lm ∧ lm ≠ ""
          ∧ te.parse lm = some modTime ∧ modTime + te.duration < te.now)
    ∧ ((updaterCycle UpdateTrigger.tick te fe st).2 = false →
        (updaterCycle UpdateTrigger.tick te fe st).1 = st) := by
  obtain ⟨hr, parse, now, dur⟩ := te
  refine ⟨?_, ?_⟩
  · cases hr with
    | error e => simp [updaterCycle, tickNeedUpdate]
    | ok lm =>
      by_cases hlm : lm = ""
      · subst hlm; simp [updaterCycle, tickNeedUpdate]
      · cases hp : parse lm with
        | none => simp [updaterCycle, tickNeedUpdate, hlm, hp]
        | some modTime =>
          by_cases hlt : modTime + dur < now <;>
            simp [updaterCycle, tickNeedUpdate, hlm, hp, hlt]
  · intro h
    by_cases hu : tickNeedUpdate ⟨hr, parse, now, dur⟩ = true
    · simp [updaterCycle, hu] at h
    · simp [updaterCycle, hu]

/-- Witness for C6: a stale Last-Modified triggers the fetch. -/
theorem updater_tick_staleness_decision_witness :
    (updaterCycle UpdateTrigger.tick
        ⟨Except.ok "lmval", fun s => if s == "lmval" then some 5 else none, 100, 10⟩
        fetchOkEnvB (newFilterState "ruleA")).2 = true :=
  (updater_tick_staleness_decision
      ⟨Except.ok "lmval", fun s => if s == "lmval" then some 5 else none, 100, 10⟩
      fetchOkEnvB (newFilterState "ruleA")).1.mpr
    ⟨"lmval", 5, rfl, by decide, rfl, by decide⟩

/-- C1: false of the code.  On the zero-configured Dialer (the only kind
that can exist, since init assigns only to a discarded value-receiver
copy and the unexported fields cannot be set elsewhere) a TCP Dial whose
host resolves to the loopback set panics dereferencing the nil DNS cache
before any loopback check or connect; it never returns the invalid
address security rejection.  The full-trace equality also records that no
resolution, no rejection error and no connect attempt happened. -/
theorem dialer_loopback_reject_never_fires :
    Dialer.Dial envLoopback {} 0 "tcp" "localhost:80"
      = { panicMsg := some nilDeref } := by
  rfl

/-- C3: false of the code.  With RetryTimes and RetryDelay unset the
claimed defaults (2 attempts, 100 ms delay) are assigned only to the
discarded init copy; the receiver keeps RetryTimes = 0, the retry loop
body never runs, and Dial returns a nil connection AND a nil error after
zero attempts and zero sleeps — here on a non-TCP network, which skips
the (also broken) DNS-cache path, with every underlying attempt set to
fail. -/
theorem dialer_retry_defaults_never_applied :
    Dialer.Dial envRetry {} 0 "udp" "example.com:53"
      = { conn := none, err := none, attempts := 0, sleeps := [] } := by
  rfl

/-- C4: false of the code.  The DNS cache of every reachable Dialer is
the nil interface (init populates only its discarded copy), so the first
TCP Dial for an address panics before resolving or caching anything —
the trace shows zero resolutions and no cache — and a later call within
the TTL window panics identically instead of reusing a cached
resolution. -/
theorem dialer_dns_cache_never_reused :
    Dialer.Dial envCache {} 0 "tcp" "example.com:80" = { panicMsg := some nilDeref }
    ∧ Dialer.Dial envCache {} 1800 "tcp" "example.com:80"
        = { panicMsg := some nilDeref } := by
  exact ⟨rfl, rfl⟩

/-- Witness for C9 on a concrete fresh listener state. -/
theorem listener_close_idempotent_add_rejected_witness :
    ((listenerClose (some "lnerr") ⟨false, false, false, []⟩).1.stopped = true
      ∧ (listenerClose (some "lnerr") ⟨false, false, false, []⟩).1.laneClosed = true
      ∧ (listenerClose (some "lnerr") ⟨false, false, false, []⟩).1.lnClosed = true
      ∧ (listenerClose (some "lnerr") ⟨false, false, false, []⟩).2 = some "lnerr")
    ∧ listenerClose none (listenerClose (some "lnerr") ⟨false, false, false, []⟩).1
        = ((listenerClose (some "lnerr") ⟨false, false, false, []⟩).1, none)
    ∧ listenerAdd 7 (listenerClose (some "lnerr") ⟨false, false, false, []⟩).1
        = ((listenerClose (some "lnerr") ⟨false, false, false, []⟩).1,
            some "already closed") :=
  listener_close_idempotent_add_rejected ⟨false, false, false, []⟩
    (some "lnerr") none 7 rfl

end GoProxy
